import Mathlib

/-!
Shallow embedding of `ros2graph` (Clearpath `clearpath_ros2cli` repository),
core file `src/ros2graph/ros2graph/verb/dot.py` (`DotVerb`): aggregation of
discovered communication records into per-channel edges and serialization to
a DOT document.  The discovery collaborator (`get_node_names`,
`get_*_info`) is external per the spec; a rendering pass consumes an
already-resolved snapshot.  `get_id` and `DotWriter` live in the
`ros2graph.api` module, which is not part of the provided sources; they are
modelled from the spec where noted.
-/

namespace Ros2Graph

/-- An identifier appearing in the output document: either a string that came
with the discovery data (a node's graph id) or an identifier allocated by the
Identifier Allocator from a prefix and a counter value. -/
inductive Ident where
  | disc (s : String)
  | alloc (pfx : String) (n : Nat)
  deriving DecidableEq, Repr

/-- Modelled from the spec: the Identifier Allocator `get_id` of the missing
`ros2graph.api` module.  "Given a string prefix, returns a string identifier
... formed by concatenating the prefix with a strictly increasing counter
value."  The counter is threaded explicitly; the rendered string would be
`pfx ++ toString n`. -/
def get_id (pfx : String) (cnt : Nat) : Ident × Nat :=
  (Ident.alloc pfx cnt, cnt + 1)

/-- A channel record as supplied by the discovery collaborator: channel name
and declared type strings (`sub.name`, `sub.types` in `dot.py`). -/
structure TopicInfo where
  name : String
  types : List String
  deriving DecidableEq, Repr

/-- A discovered node descriptor: `n.full_name`, `n.namespace`, `n.name`
(display name) and `n.id` (graph identifier assigned by discovery). -/
structure NodeName where
  full_name : String
  «namespace» : String
  name : String
  id : String
  deriving DecidableEq, Repr

/-- One node of the discovery snapshot together with the six record streams
the collaborator returns for it (subscribers, publishers, service
clients/servers, action clients/servers). -/
structure NodeInfo where
  node : NodeName
  subscribers : List TopicInfo
  publishers : List TopicInfo
  service_clients : List TopicInfo
  service_servers : List TopicInfo
  action_clients : List TopicInfo
  action_servers : List TopicInfo
  deriving DecidableEq, Repr

/-- The already-validated configuration received by `DotVerb.main` (`args`). -/
structure Args where
  all : Bool
  types : Bool
  unconnected : Bool
  select : List String
  deriving DecidableEq, Repr

/-- The `Edge` namedtuple of `DotVerb.main`:
`Edge = namedtuple('Edge', ('topic', 'src', 'dst', 'id', 'colour'))`. -/
structure Edge where
  topic : TopicInfo
  src : List Ident
  dst : List Ident
  id : Ident
  colour : String
  deriving DecidableEq, Repr

/-- Modelled from the spec: one emitted element of the output document, the
trace of the `DotWriter` calls of the missing `ros2graph.api` module
(`begin_graph`, `begin_subgraph`/`end_subgraph`, `write`, `node`, `edge`,
`end_graph`).  The two legend-table `write`s are `write id body` for the
f-string `id ++ body`; a legend row `write` of the form
`a:pa:e -> b:pb:w [color=c]` is `rowEdge a pa b pb c`. -/
inductive DotStmt where
  | beginGraph (rankdir : String) (concentrate : Bool)
  | beginSubgraph (id : Ident) (label : String)
  | endSubgraph
  | write (id : Ident) (body : String)
  | rowEdge (a : Ident) (pa : String) (b : Ident) (pb : String) (colour : String)
  | node (id : Ident) (label : Option String) (style : Option String)
  | edge (src dst : Ident) (label : String) (fontcolor color : String) (penwidth : Nat)
  | endGraph
  deriving DecidableEq, Repr

/-- `DotVerb.ignore_list` (dot.py line 27). -/
def ignore_list : List String :=
  ["/rosout", "/parameter_events", "describe_parameters", "get_parameter_types",
   "list_parameters", "set_parameters", "get_parameters", "set_parameters_atomically"]

/-- `name.split('/')[-1]`: the last segment of the `'/'`-split of a name,
i.e. the substring after the final `'/'` (the whole name when no `'/'`
occurs), computed on the character list. -/
def lastSegment (name : String) : String :=
  String.mk ((name.toList.reverse.takeWhile (· ≠ '/')).reverse)

/-- `DotVerb.ignore` (dot.py lines 45-49): a name is ignored when it, or the
last segment of its `'/'`-split, is in the ignore list. -/
def ignore (name : String) : Bool :=
  name ∈ ignore_list || lastSegment name ∈ ignore_list

/-- One raw record event of the aggregation loop: the processing node's graph
id, whether the role is outgoing (publisher / service client / action client)
or incoming, the category colour, and the record itself. -/
structure RecEvent where
  nodeId : String
  outgoing : Bool
  colour : String
  record : TopicInfo
  deriving DecidableEq, Repr

/-- The six record streams of one node, in the order `DotVerb.main` processes
them (dot.py lines 97-189): subscribers then publishers when `'topics'` is
selected, service clients then servers when `'services'` is, action clients
then servers when `'actions'` is; topic events are `blue`, service events
`orange`, action events `olive`. -/
def nodeEvents (args : Args) (info : NodeInfo) : List RecEvent :=
  (if args.select.contains "topics" then
    info.subscribers.map (fun r => ⟨info.node.id, false, "blue", r⟩) ++
    info.publishers.map (fun r => ⟨info.node.id, true, "blue", r⟩)
  else []) ++
  (if args.select.contains "services" then
    info.service_clients.map (fun r => ⟨info.node.id, true, "orange", r⟩) ++
    info.service_servers.map (fun r => ⟨info.node.id, false, "orange", r⟩)
  else []) ++
  (if args.select.contains "actions" then
    info.action_clients.map (fun r => ⟨info.node.id, true, "olive", r⟩) ++
    info.action_servers.map (fun r => ⟨info.node.id, false, "olive", r⟩)
  else [])

/-- All record events of a pass, node by node in snapshot order. -/
def snapshotEvents (args : Args) (snapshot : List NodeInfo) : List RecEvent :=
  snapshot.flatMap (nodeEvents args)

/-- The `edges` accumulator: a Python `dict` keyed by channel name, modelled
as an insertion-ordered association list. -/
abbrev Edges := List (String × Edge)

/-- `edges[k]` lookup in the insertion-ordered dict model. -/
def dictGet (k : String) : Edges → Option Edge
  | [] => none
  | (a, b) :: d => if k = a then some b else dictGet k d

/-- `edges.setdefault(k, v)`: leave the dict unchanged when the key is
present, otherwise append the `(k, v)` entry at the end. -/
def dictSetdefault (d : Edges) (k : String) (v : Edge) : Edges :=
  if (dictGet k d).isSome then d else d ++ [(k, v)]

/-- In-place update of the value stored under key `k` (the effect of
`edges[k].src.append(...)` / `edges[k].dst.append(...)`). -/
def dictModify (d : Edges) (k : String) (f : Edge → Edge) : Edges :=
  d.map (fun p => if p.1 = k then (p.1, f p.2) else p)

/-- The body of each of the six record loops of `DotVerb.main` (dot.py
lines 102-189) for one record: skip ignored names; otherwise
`edges.setdefault(name, Edge(topic=rec, dst=[], src=[], id=get_id('edge_'),
colour=...))` — `get_id` is evaluated eagerly, so the counter advances even
when the key already exists — then append the node's id to `src` for an
outgoing role or to `dst` for an incoming one. -/
def processEvent (edges : Edges) (cnt : Nat) (ev : RecEvent) : Edges × Nat :=
  if ignore ev.record.name then (edges, cnt)
  else
    let (eid, cnt') := get_id "edge_" cnt
    let edges' := dictSetdefault edges ev.record.name
      { topic := ev.record, dst := [], src := [], id := eid, colour := ev.colour }
    let edges'' := dictModify edges' ev.record.name (fun e =>
      if ev.outgoing then { e with src := e.src ++ [Ident.disc ev.nodeId] }
      else { e with dst := e.dst ++ [Ident.disc ev.nodeId] })
    (edges'', cnt')

/-- The aggregation loop folded over a list of record events. -/
def aggregateEvents : List RecEvent → Edges → Nat → Edges × Nat
  | [], edges, cnt => (edges, cnt)
  | ev :: evs, edges, cnt =>
    let (edges', cnt') := processEvent edges cnt ev
    aggregateEvents evs edges' cnt'

/-- The whole Edge Aggregator (dot.py lines 96-189): start from an empty
dict and fold all record events of the snapshot. -/
def aggregate (args : Args) (snapshot : List NodeInfo) (cnt : Nat) : Edges × Nat :=
  aggregateEvents (snapshotEvents args snapshot) [] cnt

/-- `namespaces = {n.namespace for n in node_names}` (dot.py line 57): a
Python set of the observed namespaces, determinized here to first-occurrence
order. -/
def pySet (l : List String) : List String :=
  l.foldl (fun acc x => if x ∈ acc then acc else acc ++ [x]) []

/-- `grouped_node[ns] = [n for n in node_names if ns == n.namespace]`
(dot.py line 61). -/
def groupedNode (node_names : List NodeName) (ns : String) : List NodeName :=
  node_names.filter (fun n => ns = n.«namespace»)

/-- `dw.node(n_node.id, label=n_node.name)` (dot.py line 91). -/
def nodeStmt (n : NodeName) : DotStmt :=
  DotStmt.node (Ident.disc n.id) (some n.name) none

/-- The per-namespace cluster loop (dot.py lines 87-93): a non-empty
namespace opens a labelled cluster around its member node entries; the empty
(root) namespace emits its members without a wrapping cluster. -/
def renderNamespaces (node_names : List NodeName) : List String → Nat → List DotStmt × Nat
  | [], cnt => ([], cnt)
  | ns :: nss, cnt =>
    if ns ≠ "" then
      let (cid, cnt') := get_id "cluster_" cnt
      let (rest, cnt'') := renderNamespaces node_names nss cnt'
      ([DotStmt.beginSubgraph cid ns] ++ (groupedNode node_names ns).map nodeStmt ++
        [DotStmt.endSubgraph] ++ rest, cnt'')
    else
      let (rest, cnt') := renderNamespaces node_names nss cnt
      ((groupedNode node_names ns).map nodeStmt ++ rest, cnt')

/-- Body of the first legend table `write` (dot.py lines 69-73), everything
after the interpolated `key_id`. -/
def legendBody1 : String :=
  " [shape=plaintext, label=<<table border=\"0\" cellpadding=\"2\" cellspacing=\"0\" cellborder=\"0\">\n\t<tr><td align=\"right\" port=\"i1\">Topics</td></tr>\n\t<tr><td align=\"right\" port=\"i2\">Services</td></tr>\n\t<tr><td align=\"right\" port=\"i3\">Actions</td></tr>\n\t</table>>]\n"

/-- Body of the second legend table `write` (dot.py lines 74-78). -/
def legendBody2 : String :=
  " [shape=plaintext, label=<<table border=\"0\" cellpadding=\"2\" cellspacing=\"0\" cellborder=\"0\">\n\t<tr><td port=\"i1\">&nbsp;</td></tr>\n\t<tr><td port=\"i2\">&nbsp;</td></tr>\n\t<tr><td port=\"i3\">&nbsp;</td></tr>\n\t</table>>]\n"

/-- The static legend cluster (dot.py lines 66-84), parametrized by its three
allocated identifiers. -/
def legendStmts (cid key_id key2_id : Ident) : List DotStmt :=
  [DotStmt.beginSubgraph cid "legend",
   DotStmt.write key_id legendBody1,
   DotStmt.write key2_id legendBody2,
   DotStmt.rowEdge key_id "i1" key2_id "i1" "blue",
   DotStmt.rowEdge key_id "i2" key2_id "i2" "orange",
   DotStmt.rowEdge key_id "i3" key2_id "i3" "olive",
   DotStmt.endSubgraph]

/-- The label of one rendered connection (dot.py lines 205-210): the channel
name, a parenthesized source count when there is more than one source, and —
when type display is enabled — the first declared type in brackets.  Indexing
`edge.topic.types[0]` fails on an empty type list, hence the `Option`. -/
def connLabel (args : Args) (e : Edge) (src_cnt : Nat) : Option String :=
  let label := e.topic.name
  let label := if src_cnt > 1 then label ++ "(" ++ toString src_cnt ++ ")" else label
  if args.types then
    match e.topic.types with
    | [] => none
    | t :: _ => some (label ++ " [" ++ t ++ "]")
  else some label

/-- The inner `for dst in edge.dst` loop (dot.py lines 204-211) for one
source endpoint. -/
def connRow (args : Args) (e : Edge) (src_cnt : Nat) (s : Ident) :
    List Ident → Option (List DotStmt)
  | [] => some []
  | d :: ds => do
    let lbl ← connLabel args e src_cnt
    let rest ← connRow args e src_cnt s ds
    pure (DotStmt.edge s d lbl e.colour e.colour src_cnt :: rest)

/-- The outer `for src in edge.src` loop (dot.py lines 203-211). -/
def connStmts (args : Args) (e : Edge) (src_cnt : Nat) (dst : List Ident) :
    List Ident → Option (List DotStmt)
  | [] => some []
  | s :: ss => do
    let row ← connRow args e src_cnt s dst
    let rest ← connStmts args e src_cnt dst ss
    pure (row ++ rest)

/-- Processing of one aggregated edge (dot.py lines 191-211): when
`unconnected` is set, an empty source list gets one invisible `blank_r_` node
and an empty destination list one invisible `blank_w_` node; then one
connection per (source, destination) pair is emitted, with the source count
taken on the augmented source list. -/
def renderEdge (args : Args) (cnt : Nat) (e : Edge) : Option (List DotStmt × Nat) :=
  let (preSrc, src, cnt1) :=
    if args.unconnected && e.src.isEmpty then
      let (blank, c) := get_id "blank_r_" cnt
      ([DotStmt.node blank none (some "invis")], e.src ++ [blank], c)
    else ([], e.src, cnt)
  let (preDst, dst, cnt2) :=
    if args.unconnected && e.dst.isEmpty then
      let (blank, c) := get_id "blank_w_" cnt1
      ([DotStmt.node blank none (some "invis")], e.dst ++ [blank], c)
    else ([], e.dst, cnt1)
  (connStmts args e src.length dst src).map (fun conns => (preSrc ++ preDst ++ conns, cnt2))

/-- The `for edge in edges.values()` loop (dot.py lines 191-211). -/
def renderEdges (args : Args) : Edges → Nat → Option (List DotStmt × Nat)
  | [], cnt => some ([], cnt)
  | (_, e) :: rest, cnt => do
    let (s1, c1) ← renderEdge args cnt e
    let (s2, c2) ← renderEdges args rest c1
    pure (s1 ++ s2, c2)

/-- `DotVerb.main` (dot.py lines 51-213) as a function of the configuration,
the discovery snapshot and the allocator counter: group nodes by namespace,
emit graph opening, legend, namespace clusters and node entries, aggregate
the record events into edges, resolve unconnected edges and render the
connections, then close the graph.  Fails (`none`) exactly where the Python
code raises, i.e. on the `types[0]` access of a record with no types. -/
def mainPass (args : Args) (snapshot : List NodeInfo) (cnt : Nat) :
    Option (List DotStmt × Nat) :=
  let node_names := snapshot.map (·.node)
  let namespaces := pySet (node_names.map (·.«namespace»))
  let (cid, cnt) := get_id "cluster_" cnt
  let (key_id, cnt) := get_id "key_" cnt
  let (key2_id, cnt) := get_id "key2_" cnt
  let (nsStmts, cnt) := renderNamespaces node_names namespaces cnt
  let (edges, cnt) := aggregate args snapshot cnt
  (renderEdges args edges cnt).map (fun p =>
    ([DotStmt.beginGraph "LR" true] ++ legendStmts cid key_id key2_id ++ nsStmts ++
      p.1 ++ [DotStmt.endGraph], p.2))

/-- The record events that affect the edge under channel name `name`: the
record's name equals `name` and the record is not ignored. -/
def evMatch (name : String) (ev : RecEvent) : Bool :=
  ev.record.name == name && !ignore ev.record.name

/-- The node identifiers the outgoing-role (publisher / service client /
action client) events of `evs` for channel `name` append to the source list,
in processing order. -/
def outIds (evs : List RecEvent) (name : String) : List Ident :=
  (evs.filter (fun ev => evMatch name ev && ev.outgoing)).map (fun ev => Ident.disc ev.nodeId)

/-- The node identifiers the incoming-role (subscriber / service server /
action server) events of `evs` for channel `name` append to the destination
list, in processing order. -/
def inIds (evs : List RecEvent) (name : String) : List Ident :=
  (evs.filter (fun ev => evMatch name ev && !ev.outgoing)).map (fun ev => Ident.disc ev.nodeId)

/-- Shift every allocated identifier's counter value by `k`. -/
def shiftIdent (k : Nat) : Ident → Ident
  | .disc s => .disc s
  | .alloc p n => .alloc p (n + k)

/-- Shift the allocated-identifier counters of a document statement by `k`. -/
def shiftStmt (k : Nat) : DotStmt → DotStmt
  | .beginGraph r c => .beginGraph r c
  | .beginSubgraph i l => .beginSubgraph (shiftIdent k i) l
  | .endSubgraph => .endSubgraph
  | .write i b => .write (shiftIdent k i) b
  | .rowEdge a pa b pb c => .rowEdge (shiftIdent k a) pa (shiftIdent k b) pb c
  | .node i l s => .node (shiftIdent k i) l s
  | .edge s d l fc c p => .edge (shiftIdent k s) (shiftIdent k d) l fc c p
  | .endGraph => .endGraph

/-- Shift the allocated identifiers inside an aggregated edge by `k`. -/
def shiftEdge (k : Nat) (e : Edge) : Edge :=
  { e with src := e.src.map (shiftIdent k), dst := e.dst.map (shiftIdent k),
           id := shiftIdent k e.id }

/-- Shift the allocated identifiers of every edge of a mapping by `k`. -/
def shiftEdges (k : Nat) (d : Edges) : Edges :=
  d.map (fun p => (p.1, shiftEdge k p.2))

/-- Erase the numeric suffix of an allocated identifier, keeping its prefix;
discovery-supplied identifiers are kept as they are. -/
def shapeIdent : Ident → Ident
  | .disc s => .disc s
  | .alloc p _ => .alloc p 0

/-- The shape of a document statement: the statement with every allocated
identifier's numeric suffix erased.  Two documents with the same statement
shapes agree on structure, cluster labels, node labels, edge labels, colours
and multiplicity counts, and differ at most in identifier numeric
suffixes. -/
def shapeStmt : DotStmt → DotStmt
  | .beginGraph r c => .beginGraph r c
  | .beginSubgraph i l => .beginSubgraph (shapeIdent i) l
  | .endSubgraph => .endSubgraph
  | .write i b => .write (shapeIdent i) b
  | .rowEdge a pa b pb c => .rowEdge (shapeIdent a) pa (shapeIdent b) pb c
  | .node i l s => .node (shapeIdent i) l s
  | .edge s d l fc c p => .edge (shapeIdent s) (shapeIdent d) l fc c p
  | .endGraph => .endGraph

/-- Whether a statement opens a cluster labelled `ns`. -/
def isBeginNs (ns : String) : DotStmt → Bool
  | .beginSubgraph _ l => l == ns
  | _ => false

/-- All channel records the discovery collaborator supplies for one node,
across the six streams. -/
def allRecords (info : NodeInfo) : List TopicInfo :=
  info.subscribers ++ info.publishers ++ info.service_clients ++
  info.service_servers ++ info.action_clients ++ info.action_servers

/-! ### Sample data for concrete evaluations -/

/-- The default configuration of `DotVerb` (`types`, `unconnected` default
to `True`, all three categories selected). -/
def wArgs : Args := ⟨false, true, true, ["topics", "services", "actions"]⟩

/-- The default configuration with `unconnected` turned off. -/
def wArgsNoU : Args := ⟨false, true, false, ["topics", "services", "actions"]⟩

/-- A sample topic record. -/
def wRec : TopicInfo := ⟨"/chat", ["std_msgs/String", "other/Type"]⟩

/-- A sample node publishing `wRec`. -/
def wNodeA : NodeInfo := ⟨⟨"/ns/a", "/ns", "a", "n1"⟩, [], [wRec], [], [], [], []⟩

/-- A sample node subscribing to `wRec`, in the root namespace. -/
def wNodeB : NodeInfo := ⟨⟨"/b", "", "b", "n2"⟩, [wRec], [], [], [], [], []⟩

/-- A sample aggregated edge with one source and two destinations. -/
def wEdge : Edge :=
  ⟨wRec, [Ident.disc "n1"], [Ident.disc "n2", Ident.disc "n3"], Ident.alloc "edge_" 0, "blue"⟩

/-- A sample aggregated edge with no sources. -/
def wEdgeNoSrc : Edge := ⟨wRec, [], [Ident.disc "n2"], Ident.alloc "edge_" 0, "blue"⟩

/-- A sample aggregated edge with no destinations. -/
def wEdgeNoDst : Edge := ⟨wRec, [Ident.disc "n1"], [], Ident.alloc "edge_" 0, "blue"⟩

/-- A record that declares no type strings. -/
def wBadRec : TopicInfo := ⟨"/bad", []⟩

/-- A node publishing a record with an empty type list. -/
def wBadNode : NodeInfo := ⟨⟨"/c", "", "c", "n9"⟩, [], [wBadRec], [], [], [], []⟩

/-! ### Dictionary lemmas -/

theorem dictGet_append (k : String) (d d' : Edges) :
    dictGet k (d ++ d') = (dictGet k d).or (dictGet k d') := by
  induction d with
  | nil => simp [dictGet]
  | cons p t ih =>
    obtain ⟨a, b⟩ := p
    by_cases h : k = a <;> simp [dictGet, h, ih]

theorem dictGet_setdefault_self (d : Edges) (k : String) (v : Edge) :
    dictGet k (dictSetdefault d k v) = some ((dictGet k d).getD v) := by
  unfold dictSetdefault
  cases h : dictGet k d with
  | none => simp [h, dictGet_append, dictGet]
  | some e => simp [h]

theorem dictGet_setdefault_ne (d : Edges) {k k' : String} (v : Edge) (h : k' ≠ k) :
    dictGet k' (dictSetdefault d k v) = dictGet k' d := by
  unfold dictSetdefault
  cases hx : dictGet k d with
  | none => simp [dictGet_append, dictGet, h]
  | some e => simp

theorem dictModify_cons (a : String) (b : Edge) (t : Edges) (k : String) (f : Edge → Edge) :
    dictModify ((a, b) :: t) k f =
      (if a = k then (a, f b) else (a, b)) :: dictModify t k f := rfl

theorem dictGet_modify_self (d : Edges) (k : String) (f : Edge → Edge) :
    dictGet k (dictModify d k f) = (dictGet k d).map f := by
  induction d with
  | nil => simp [dictGet, dictModify]
  | cons p t ih =>
    obtain ⟨a, b⟩ := p
    rw [dictModify_cons]
    by_cases ha : a = k
    · rw [if_pos ha]
      subst ha
      simp [dictGet, ih]
    · rw [if_neg ha]
      have hk : ¬k = a := fun h => ha h.symm
      simp [dictGet, hk, ih]

theorem dictGet_modify_ne (d : Edges) {k k' : String} (f : Edge → Edge) (h : k' ≠ k) :
    dictGet k' (dictModify d k f) = dictGet k' d := by
  induction d with
  | nil => simp [dictGet, dictModify]
  | cons p t ih =>
    obtain ⟨a, b⟩ := p
    rw [dictModify_cons]
    by_cases ha : a = k
    · rw [if_pos ha]
      subst ha
      simp [dictGet, h, ih]
    · rw [if_neg ha]
      by_cases h' : k' = a <;> simp [dictGet, h', ih]

/-! ### Single-event lemmas -/

theorem processEvent_ignored (edges : Edges) (cnt : Nat) (ev : RecEvent)
    (h : ignore ev.record.name = true) :
    processEvent edges cnt ev = (edges, cnt) := by
  simp [processEvent, h]

theorem dictGet_processEvent_ne (edges : Edges) (cnt : Nat) (ev : RecEvent)
    {name : String} (h : name ≠ ev.record.name) :
    dictGet name (processEvent edges cnt ev).1 = dictGet name edges := by
  unfold processEvent
  by_cases hi : ignore ev.record.name
  · simp [hi]
  · simp only [hi, Bool.false_eq_true, if_false]
    rw [dictGet_modify_ne _ _ h, dictGet_setdefault_ne _ _ h]

theorem dictGet_processEvent_self (edges : Edges) (cnt : Nat) (ev : RecEvent)
    (hi : ignore ev.record.name = false) :
    dictGet ev.record.name (processEvent edges cnt ev).1 =
      some (
        let e := (dictGet ev.record.name edges).getD
          { topic := ev.record, dst := [], src := [],
            id := Ident.alloc "edge_" cnt, colour := ev.colour }
        if ev.outgoing then { e with src := e.src ++ [Ident.disc ev.nodeId] }
        else { e with dst := e.dst ++ [Ident.disc ev.nodeId] }) := by
  unfold processEvent
  simp only [hi, Bool.false_eq_true, if_false]
  rw [dictGet_modify_self, dictGet_setdefault_self]
  simp [get_id]

theorem processEvent_cnt (edges : Edges) (cnt : Nat) (ev : RecEvent) :
    (processEvent edges cnt ev).2 = if ignore ev.record.name then cnt else cnt + 1 := by
  by_cases h : ignore ev.record.name <;> simp [processEvent, h, get_id]

/-! ### Fold lemmas for the Edge Aggregator -/

theorem outIds_cons (ev : RecEvent) (evs : List RecEvent) (name : String) :
    outIds (ev :: evs) name =
      (if evMatch name ev && ev.outgoing then [Ident.disc ev.nodeId] else []) ++ outIds evs name := by
  unfold outIds
  rw [List.filter_cons]
  by_cases h : (evMatch name ev && ev.outgoing : Bool) <;> simp [h]

theorem inIds_cons (ev : RecEvent) (evs : List RecEvent) (name : String) :
    inIds (ev :: evs) name =
      (if evMatch name ev && !ev.outgoing then [Ident.disc ev.nodeId] else []) ++ inIds evs name := by
  unfold inIds
  rw [List.filter_cons]
  by_cases h : (evMatch name ev && !ev.outgoing : Bool) <;> simp [h]

theorem evMatch_eq_false_of_ignore {ev : RecEvent} {name : String}
    (hi : ignore ev.record.name = true) : evMatch name ev = false := by
  simp [evMatch, hi]

theorem evMatch_eq_false_of_ne {ev : RecEvent} {name : String}
    (h : name ≠ ev.record.name) : evMatch name ev = false := by
  simp only [evMatch, Bool.and_eq_false_iff]
  exact Or.inl (by simpa using fun hh => absurd hh.symm h)

theorem evMatch_elim {ev : RecEvent} {name : String} (h : evMatch name ev = true) :
    name = ev.record.name ∧ ignore ev.record.name = false := by
  simp only [evMatch, Bool.and_eq_true, beq_iff_eq, Bool.not_eq_true'] at h
  exact ⟨h.1.symm, h.2⟩

theorem dictGet_processEvent_nomatch (edges : Edges) (cnt : Nat) (ev : RecEvent)
    {name : String} (h : evMatch name ev = false) :
    dictGet name (processEvent edges cnt ev).1 = dictGet name edges := by
  by_cases he : name = ev.record.name
  · subst he
    have hi : ignore ev.record.name = true := by
      by_contra hi
      have hi' : ignore ev.record.name = false := by
        cases hb : ignore ev.record.name
        · rfl
        · exact absurd hb hi
      simp [evMatch, hi'] at h
    rw [processEvent_ignored _ _ _ hi]
  · exact dictGet_processEvent_ne _ _ _ he

theorem aggregateEvents_dictGet_some :
    ∀ (evs : List RecEvent) (edges : Edges) (cnt : Nat) (name : String) (e : Edge),
    dictGet name edges = some e →
    dictGet name (aggregateEvents evs edges cnt).1 =
      some { e with src := e.src ++ outIds evs name, dst := e.dst ++ inIds evs name }
  | [], edges, cnt, name, e, h => by
    simp [aggregateEvents, outIds, inIds, h]
  | ev :: evs, edges, cnt, name, e, h => by
    rw [show aggregateEvents (ev :: evs) edges cnt =
        aggregateEvents evs (processEvent edges cnt ev).1 (processEvent edges cnt ev).2 from rfl]
    by_cases hm : evMatch name ev = true
    · obtain ⟨he, hi⟩ := evMatch_elim hm
      subst he
      have hstep := dictGet_processEvent_self edges cnt ev hi
      rw [h] at hstep
      simp only [Option.getD_some] at hstep
      by_cases ho : ev.outgoing
      · simp only [ho, if_true] at hstep
        rw [aggregateEvents_dictGet_some evs _ _ _ _ hstep]
        simp [outIds_cons, inIds_cons, hm, ho, List.append_assoc]
      · simp only [ho, if_false] at hstep
        rw [aggregateEvents_dictGet_some evs _ _ _ _ hstep]
        simp [outIds_cons, inIds_cons, hm, ho, List.append_assoc]
    · have hm' : evMatch name ev = false := by simpa using hm
      have hstep := dictGet_processEvent_nomatch edges cnt ev hm'
      rw [h] at hstep
      rw [aggregateEvents_dictGet_some evs _ _ _ _ hstep]
      simp [outIds_cons, inIds_cons, hm']

theorem aggregateEvents_dictGet_none :
    ∀ (evs : List RecEvent) (edges : Edges) (cnt : Nat) (name : String),
    dictGet name edges = none →
    (∀ ev ∈ evs, evMatch name ev = false) →
    dictGet name (aggregateEvents evs edges cnt).1 = none
  | [], edges, cnt, name, h, _ => by simpa [aggregateEvents] using h
  | ev :: evs, edges, cnt, name, h, hall => by
    rw [show aggregateEvents (ev :: evs) edges cnt =
        aggregateEvents evs (processEvent edges cnt ev).1 (processEvent edges cnt ev).2 from rfl]
    have hm := hall ev (by simp)
    have hstep := dictGet_processEvent_nomatch edges cnt ev hm
    rw [h] at hstep
    exact aggregateEvents_dictGet_none evs _ _ _ hstep
      (fun x hx => hall x (by simp [hx]))

theorem aggregateEvents_dictGet_created :
    ∀ (evs : List RecEvent) (edges : Edges) (cnt : Nat) (name : String)
      (ev0 : RecEvent) (rest : List RecEvent),
    dictGet name edges = none →
    evs.filter (evMatch name) = ev0 :: rest →
    ∃ k, dictGet name (aggregateEvents evs edges cnt).1 =
      some { topic := ev0.record, src := outIds evs name, dst := inIds evs name,
             id := Ident.alloc "edge_" k, colour := ev0.colour }
  | [], _, _, _, _, _, _, hf => by simp at hf
  | ev :: evs, edges, cnt, name, ev0, rest, h, hf => by
    rw [show aggregateEvents (ev :: evs) edges cnt =
        aggregateEvents evs (processEvent edges cnt ev).1 (processEvent edges cnt ev).2 from rfl]
    by_cases hm : evMatch name ev = true
    · rw [List.filter_cons_of_pos hm] at hf
      obtain ⟨rfl, hrest⟩ : ev = ev0 ∧ evs.filter (evMatch name) = rest := by
        constructor
        · exact (List.cons.injEq _ _ _ _ ▸ hf).1
        · exact (List.cons.injEq _ _ _ _ ▸ hf).2
      obtain ⟨he, hi⟩ := evMatch_elim hm
      subst he
      have hstep := dictGet_processEvent_self edges cnt ev hi
      rw [h] at hstep
      simp only [Option.getD_none] at hstep
      refine ⟨cnt, ?_⟩
      by_cases ho : ev.outgoing
      · simp only [ho, if_true] at hstep
        rw [aggregateEvents_dictGet_some evs _ _ _ _ hstep]
        simp [outIds_cons, inIds_cons, hm, ho]
      · simp only [ho, if_false] at hstep
        rw [aggregateEvents_dictGet_some evs _ _ _ _ hstep]
        simp [outIds_cons, inIds_cons, hm, ho]
    · have hm' : evMatch name ev = false := by simpa using hm
      rw [List.filter_cons_of_neg (by simp [hm'])] at hf
      have hstep := dictGet_processEvent_nomatch edges cnt ev hm'
      rw [h] at hstep
      obtain ⟨k, hk⟩ := aggregateEvents_dictGet_created evs _ _ name ev0 rest hstep hf
      refine ⟨k, ?_⟩
      rw [hk]
      simp [outIds_cons, inIds_cons, hm']

/-! ### Claim C1 -/

/-- C1: for every discovery snapshot and channel name, the aggregated edge
for that name has as source list exactly one appended node identifier per
non-ignored outgoing-role record (publisher, service client, action client)
for that name, in processing order with duplicates kept, and symmetrically
for the destination list and incoming-role records; hence the list lengths
equal the respective non-ignored record counts, and no record is dropped
except those matching the ignore filter. -/
theorem claim_C1_aggregation_counts (args : Args) (snapshot : List NodeInfo)
    (cnt : Nat) (name : String) (e : Edge)
    (h : dictGet name (aggregate args snapshot cnt).1 = some e) :
    e.src = outIds (snapshotEvents args snapshot) name ∧
    e.dst = inIds (snapshotEvents args snapshot) name ∧
    e.src.length = ((snapshotEvents args snapshot).filter
      (fun ev => evMatch name ev && ev.outgoing)).length ∧
    e.dst.length = ((snapshotEvents args snapshot).filter
      (fun ev => evMatch name ev && !ev.outgoing)).length := by
  unfold aggregate at h
  cases hf : (snapshotEvents args snapshot).filter (evMatch name) with
  | nil =>
    have hnone := aggregateEvents_dictGet_none (snapshotEvents args snapshot) [] cnt name rfl
      (by
        intro ev hev
        by_contra hc
        have : ev ∈ (snapshotEvents args snapshot).filter (evMatch name) :=
          List.mem_filter.mpr ⟨hev, by simpa using hc⟩
        simp [hf] at this)
    rw [hnone] at h
    exact absurd h (by simp)
  | cons ev0 rest =>
    obtain ⟨k, hk⟩ := aggregateEvents_dictGet_created (snapshotEvents args snapshot) [] cnt
      name ev0 rest rfl hf
    rw [hk] at h
    obtain rfl := Option.some.inj h
    refine ⟨rfl, rfl, ?_, ?_⟩ <;> simp [outIds, inIds]

/-- Witness for C1 at a concrete snapshot: one publisher on node `n1` and
one subscriber on node `n2` for channel `/chat`. -/
theorem claim_C1_witness :
    (⟨wRec, [Ident.disc "n1"], [Ident.disc "n2"], Ident.alloc "edge_" 0, "blue"⟩ : Edge).src
        = outIds (snapshotEvents wArgs [wNodeA, wNodeB]) "/chat" ∧
    (⟨wRec, [Ident.disc "n1"], [Ident.disc "n2"], Ident.alloc "edge_" 0, "blue"⟩ : Edge).dst
        = inIds (snapshotEvents wArgs [wNodeA, wNodeB]) "/chat" ∧
    (⟨wRec, [Ident.disc "n1"], [Ident.disc "n2"], Ident.alloc "edge_" 0, "blue"⟩ : Edge).src.length
        = ((snapshotEvents wArgs [wNodeA, wNodeB]).filter
            (fun ev => evMatch "/chat" ev && ev.outgoing)).length ∧
    (⟨wRec, [Ident.disc "n1"], [Ident.disc "n2"], Ident.alloc "edge_" 0, "blue"⟩ : Edge).dst.length
        = ((snapshotEvents wArgs [wNodeA, wNodeB]).filter
            (fun ev => evMatch "/chat" ev && !ev.outgoing)).length :=
  claim_C1_aggregation_counts wArgs [wNodeA, wNodeB] 0 "/chat" _ (by rfl)

/-! ### Claim C4 -/

/-- C4: a record whose full name, or last `'/'`-separated path segment, is in
the fixed denylist is recognized by the ignore filter and contributes
nothing: processing it leaves the edge mapping (and the allocator counter)
exactly unchanged, so it adds no entry to any source or destination list and
creates no edge. -/
theorem claim_C4_ignore_filter (edges : Edges) (cnt : Nat) (ev : RecEvent)
    (h : ev.record.name ∈ ignore_list ∨ lastSegment ev.record.name ∈ ignore_list) :
    processEvent edges cnt ev = (edges, cnt) ∧
    ∀ evs, aggregateEvents (ev :: evs) edges cnt = aggregateEvents evs edges cnt := by
  have hi : ignore ev.record.name = true := by
    unfold ignore
    rcases h with h | h <;> simp [h]
  refine ⟨processEvent_ignored edges cnt ev hi, fun evs => ?_⟩
  rw [show aggregateEvents (ev :: evs) edges cnt =
      aggregateEvents evs (processEvent edges cnt ev).1 (processEvent edges cnt ev).2 from rfl]
  rw [processEvent_ignored edges cnt ev hi]

/-- Witness for C4: a subscriber record for `/rosout` (denylist member) and
implicitly its last-segment variant, applied to a concrete mapping. -/
theorem claim_C4_witness :
    processEvent [] 0 ⟨"n1", false, "blue", ⟨"/rosout", ["rcl_interfaces/Log"]⟩⟩ = ([], 0) ∧
    ∀ evs, aggregateEvents (⟨"n1", false, "blue", ⟨"/rosout", ["rcl_interfaces/Log"]⟩⟩ :: evs) [] 0 =
      aggregateEvents evs [] 0 :=
  claim_C4_ignore_filter [] 0 ⟨"n1", false, "blue", ⟨"/rosout", ["rcl_interfaces/Log"]⟩⟩
    (Or.inl (by decide))

/-! ### Key-uniqueness lemmas -/

theorem dictModify_keys (d : Edges) (k : String) (f : Edge → Edge) :
    (dictModify d k f).map Prod.fst = d.map Prod.fst := by
  induction d with
  | nil => rfl
  | cons p t ih =>
    obtain ⟨a, b⟩ := p
    rw [dictModify_cons]
    by_cases ha : a = k
    · rw [if_pos ha]; simpa using ih
    · rw [if_neg ha]; simpa using ih

theorem dictGet_eq_none_iff (d : Edges) (k : String) :
    dictGet k d = none ↔ k ∉ d.map Prod.fst := by
  induction d with
  | nil => simp [dictGet]
  | cons p t ih =>
    obtain ⟨a, b⟩ := p
    by_cases h : k = a <;> simp [dictGet, h, ih]

theorem dictSetdefault_keys (d : Edges) (k : String) (v : Edge) :
    (dictSetdefault d k v).map Prod.fst =
      if (dictGet k d).isSome then d.map Prod.fst else d.map Prod.fst ++ [k] := by
  unfold dictSetdefault
  by_cases h : (dictGet k d).isSome <;> simp [h]

theorem processEvent_keys_nodup (edges : Edges) (cnt : Nat) (ev : RecEvent)
    (h : (edges.map Prod.fst).Nodup) :
    ((processEvent edges cnt ev).1.map Prod.fst).Nodup := by
  unfold processEvent
  by_cases hi : ignore ev.record.name
  · simpa [hi]
  · simp only [hi, Bool.false_eq_true, if_false]
    rw [dictModify_keys, dictSetdefault_keys]
    by_cases hs : (dictGet ev.record.name edges).isSome
    · simpa [hs]
    · have hn : dictGet ev.record.name edges = none := by
        cases hx : dictGet ev.record.name edges
        · rfl
        · simp [hx] at hs
      have := (dictGet_eq_none_iff edges ev.record.name).mp hn
      simp [hs, List.nodup_append, h, this]

theorem aggregateEvents_keys_nodup :
    ∀ (evs : List RecEvent) (edges : Edges) (cnt : Nat),
    (edges.map Prod.fst).Nodup →
    ((aggregateEvents evs edges cnt).1.map Prod.fst).Nodup
  | [], edges, cnt, h => by simpa [aggregateEvents]
  | ev :: evs, edges, cnt, h => by
    rw [show aggregateEvents (ev :: evs) edges cnt =
        aggregateEvents evs (processEvent edges cnt ev).1 (processEvent edges cnt ev).2 from rfl]
    exact aggregateEvents_keys_nodup evs _ _ (processEvent_keys_nodup edges cnt ev h)

theorem nodeEvents_colour (args : Args) (info : NodeInfo) (ev : RecEvent)
    (h : ev ∈ nodeEvents args info) :
    (ev.record ∈ info.subscribers ++ info.publishers ∧ ev.colour = "blue") ∨
    (ev.record ∈ info.service_clients ++ info.service_servers ∧ ev.colour = "orange") ∨
    (ev.record ∈ info.action_clients ++ info.action_servers ∧ ev.colour = "olive") := by
  unfold nodeEvents at h
  simp only [List.mem_append] at h
  rcases h with (h | h) | h
  · split at h
    · simp only [List.mem_append, List.mem_map] at h
      rcases h with ⟨r, hr, rfl⟩ | ⟨r, hr, rfl⟩ <;> simp [hr]
    · simp at h
  · split at h
    · simp only [List.mem_append, List.mem_map] at h
      rcases h with ⟨r, hr, rfl⟩ | ⟨r, hr, rfl⟩ <;> simp [hr]
    · simp at h
  · split at h
    · simp only [List.mem_append, List.mem_map] at h
      rcases h with ⟨r, hr, rfl⟩ | ⟨r, hr, rfl⟩ <;> simp [hr]
    · simp at h

/-! ### Claim C5 -/

/-- C5: the edge mapping keeps at most one Aggregated Edge per channel name
across all categories (its keys are pairwise distinct); an edge is seeded
from the first non-ignored record for its name — that record, an allocated
`edge_` identifier and the record's category colour; record events carry one
colour per category (`blue` for topic roles, `orange` for service roles,
`olive` for action roles); and a record arriving under an existing name
silently reuses the existing edge, leaving record, identifier and colour
unchanged. -/
theorem claim_C5_unique_edge_per_name (args : Args) (snapshot : List NodeInfo) (cnt : Nat) :
    ((aggregate args snapshot cnt).1.map Prod.fst).Nodup ∧
    (∀ name ev0 rest, (snapshotEvents args snapshot).filter (evMatch name) = ev0 :: rest →
      ∃ k e, dictGet name (aggregate args snapshot cnt).1 = some e ∧
        e.topic = ev0.record ∧ e.colour = ev0.colour ∧ e.id = Ident.alloc "edge_" k) ∧
    (∀ ev ∈ snapshotEvents args snapshot,
      ev.colour = "blue" ∨ ev.colour = "orange" ∨ ev.colour = "olive") ∧
    (∀ edges c (ev : RecEvent) e, dictGet ev.record.name edges = some e →
      ∃ e', dictGet ev.record.name (processEvent edges c ev).1 = some e' ∧
        e'.topic = e.topic ∧ e'.id = e.id ∧ e'.colour = e.colour) := by
  refine ⟨aggregateEvents_keys_nodup _ [] cnt (by simp), ?_, ?_, ?_⟩
  · intro name ev0 rest hf
    obtain ⟨k, hk⟩ := aggregateEvents_dictGet_created (snapshotEvents args snapshot) [] cnt
      name ev0 rest rfl hf
    exact ⟨k, _, hk, rfl, rfl, rfl⟩
  · intro ev hev
    obtain ⟨info, _, hin⟩ := List.mem_flatMap.mp hev
    rcases nodeEvents_colour args info ev hin with ⟨_, h⟩ | ⟨_, h⟩ | ⟨_, h⟩ <;> simp [h]
  · intro edges c ev e he
    by_cases hi : ignore ev.record.name
    · rw [processEvent_ignored _ _ _ hi]
      exact ⟨e, he, rfl, rfl, rfl⟩
    · have hi' : ignore ev.record.name = false := by
        cases hx : ignore ev.record.name
        · rfl
        · exact absurd hx hi
      have := dictGet_processEvent_self edges c ev hi'
      rw [he] at this
      simp only [Option.getD_some] at this
      by_cases ho : ev.outgoing
      · simp only [ho, if_true] at this
        exact ⟨_, this, rfl, rfl, rfl⟩
      · simp only [ho, if_false] at this
        exact ⟨_, this, rfl, rfl, rfl⟩

/-- Witness for C5 at the concrete two-node snapshot: the publisher record of
node `n1` is the first matching event for `/chat` and seeds the edge. -/
theorem claim_C5_witness :
    ((aggregate wArgs [wNodeA, wNodeB] 0).1.map Prod.fst).Nodup ∧
    (∃ k e, dictGet "/chat" (aggregate wArgs [wNodeA, wNodeB] 0).1 = some e ∧
      e.topic = (⟨"n1", true, "blue", wRec⟩ : RecEvent).record ∧
      e.colour = (⟨"n1", true, "blue", wRec⟩ : RecEvent).colour ∧
      e.id = Ident.alloc "edge_" k) := by
  obtain ⟨h1, h2, _, _⟩ := claim_C5_unique_edge_per_name wArgs [wNodeA, wNodeB] 0
  exact ⟨h1, h2 "/chat" ⟨"n1", true, "blue", wRec⟩ [⟨"n2", false, "blue", wRec⟩] (by decide)⟩

/-! ### Claim C9 -/

/-- C9: once the Aggregated Edge for a name exists, processing any further
record events leaves its originating record, edge identifier and colour
unchanged and only appends node identifiers to its source list (for
non-ignored outgoing roles with that name) and destination list (for
incoming ones); combined with creation from the first non-ignored record,
the edge's record/identifier/colour are those of the first record. -/
theorem claim_C9_first_record_frame (evs : List RecEvent) (edges : Edges) (cnt : Nat)
    (name : String) (e : Edge) (h : dictGet name edges = some e) :
    ∃ e', dictGet name (aggregateEvents evs edges cnt).1 = some e' ∧
      e'.topic = e.topic ∧ e'.id = e.id ∧ e'.colour = e.colour ∧
      e'.src = e.src ++ outIds evs name ∧ e'.dst = e.dst ++ inIds evs name := by
  exact ⟨_, aggregateEvents_dictGet_some evs edges cnt name e h, rfl, rfl, rfl, rfl, rfl⟩

/-- Witness for C9: a later service-server record under the existing name
`/chat` (a category collision) only appends to the destination list. -/
theorem claim_C9_witness :
    ∃ e', dictGet "/chat" (aggregateEvents
        [⟨"n7", false, "orange", ⟨"/chat", ["srv/Type"]⟩⟩] [("/chat", wEdge)] 5).1 = some e' ∧
      e'.topic = wEdge.topic ∧ e'.id = wEdge.id ∧ e'.colour = wEdge.colour ∧
      e'.src = wEdge.src ++ outIds [⟨"n7", false, "orange", ⟨"/chat", ["srv/Type"]⟩⟩] "/chat" ∧
      e'.dst = wEdge.dst ++ inIds [⟨"n7", false, "orange", ⟨"/chat", ["srv/Type"]⟩⟩] "/chat" :=
  claim_C9_first_record_frame [⟨"n7", false, "orange", ⟨"/chat", ["srv/Type"]⟩⟩]
    [("/chat", wEdge)] 5 "/chat" wEdge (by decide)

/-! ### Serializer lemmas -/

theorem connLabel_isSome (args : Args) (e : Edge) (c : Nat)
    (ht : args.types = true → e.topic.types ≠ []) : (connLabel args e c).isSome := by
  unfold connLabel
  cases hat : args.types
  · simp
  · cases hty : e.topic.types
    · exact absurd hty (ht hat)
    · simp

theorem connLabel_eq (args : Args) (e : Edge) (c : Nat)
    (ht : args.types = true → e.topic.types ≠ []) :
    connLabel args e c = some
      (if args.types then
        (if c > 1 then e.topic.name ++ "(" ++ toString c ++ ")" else e.topic.name) ++
          " [" ++ e.topic.types.headD "" ++ "]"
      else if c > 1 then e.topic.name ++ "(" ++ toString c ++ ")" else e.topic.name) := by
  unfold connLabel
  cases hat : args.types
  · simp
  · cases hty : e.topic.types
    · exact absurd hty (ht hat)
    · simp [hty]

theorem connRow_eq (args : Args) (e : Edge) (c : Nat) (s : Ident) (lbl : String)
    (h : connLabel args e c = some lbl) :
    ∀ ds, connRow args e c s ds =
      some (ds.map (fun d => DotStmt.edge s d lbl e.colour e.colour c))
  | [] => rfl
  | d :: ds => by
    simp only [connRow, h, connRow_eq args e c s lbl h ds, Option.bind_some, List.map_cons]
    rfl

theorem connStmts_eq (args : Args) (e : Edge) (c : Nat) (dst : List Ident) (lbl : String)
    (h : connLabel args e c = some lbl) :
    ∀ src, connStmts args e c dst src =
      some (src.flatMap (fun s => dst.map (fun d => DotStmt.edge s d lbl e.colour e.colour c)))
  | [] => rfl
  | s :: ss => by
    simp only [connStmts, connRow_eq args e c s lbl h dst,
      connStmts_eq args e c dst lbl h ss, Option.bind_some, List.flatMap_cons]
    rfl

theorem connStmts_dst_nil (args : Args) (e : Edge) (c : Nat) :
    ∀ ss, connStmts args e c [] ss = some []
  | [] => rfl
  | s :: ss => by
    simp only [connStmts, connRow, connStmts_dst_nil args e c ss, Option.bind_some]
    rfl

theorem flatMap_singleton_map {α β : Type} (f : α → β) :
    ∀ l : List α, (l.flatMap fun a => [f a]) = l.map f
  | [] => rfl
  | a :: l => by simp [flatMap_singleton_map f l]

theorem flatMap_const_length {α β : Type} (g : α → List β) (n : Nat)
    (h : ∀ a, (g a).length = n) : ∀ l : List α, (l.flatMap g).length = l.length * n
  | [] => by simp
  | a :: l => by
    simp [flatMap_const_length g n h l, h a, Nat.succ_mul, Nat.add_comm]

/-! ### Claim C2 -/

/-- C2: for an aggregated edge with non-empty source and destination lists,
serialization emits exactly one connection per (source, destination) pair of
the Cartesian product; every connection's label is the channel name, with a
parenthesized source count appended exactly when the source list has more
than one entry, and — when type display is enabled — the first declared type
of the originating record in brackets; colour and font colour are the edge's
category colour and the pen width is the source count. -/
theorem claim_C2_cartesian_serialization (args : Args) (cnt : Nat) (e : Edge)
    (hs : e.src ≠ []) (hd : e.dst ≠ []) (ht : args.types = true → e.topic.types ≠ []) :
    renderEdge args cnt e = some
      (e.src.flatMap (fun s => e.dst.map (fun d =>
        DotStmt.edge s d
          (if args.types then
            (if e.src.length > 1 then e.topic.name ++ "(" ++ toString e.src.length ++ ")"
             else e.topic.name) ++ " [" ++ e.topic.types.headD "" ++ "]"
           else if e.src.length > 1 then e.topic.name ++ "(" ++ toString e.src.length ++ ")"
           else e.topic.name)
          e.colour e.colour e.src.length)), cnt) ∧
    (e.src.flatMap (fun s => e.dst.map (fun d =>
        DotStmt.edge s d
          (if args.types then
            (if e.src.length > 1 then e.topic.name ++ "(" ++ toString e.src.length ++ ")"
             else e.topic.name) ++ " [" ++ e.topic.types.headD "" ++ "]"
           else if e.src.length > 1 then e.topic.name ++ "(" ++ toString e.src.length ++ ")"
           else e.topic.name)
          e.colour e.colour e.src.length))).length = e.src.length * e.dst.length := by
  have hse : e.src.isEmpty = false := by simpa [List.isEmpty_iff] using hs
  have hde : e.dst.isEmpty = false := by simpa [List.isEmpty_iff] using hd
  constructor
  · unfold renderEdge
    simp only [hse, hde, Bool.and_false, Bool.false_eq_true, if_false]
    rw [connStmts_eq args e e.src.length e.dst _ (connLabel_eq args e e.src.length ht) e.src]
    simp
  · exact flatMap_const_length _ e.dst.length (fun s => by simp) e.src

/-- Witness for C2: one source, two destinations, type display enabled. -/
theorem claim_C2_witness :
    renderEdge wArgs 3 wEdge = some
      (wEdge.src.flatMap (fun s => wEdge.dst.map (fun d =>
        DotStmt.edge s d
          (if wArgs.types then
            (if wEdge.src.length > 1 then wEdge.topic.name ++ "(" ++ toString wEdge.src.length ++ ")"
             else wEdge.topic.name) ++ " [" ++ wEdge.topic.types.headD "" ++ "]"
           else if wEdge.src.length > 1 then wEdge.topic.name ++ "(" ++ toString wEdge.src.length ++ ")"
           else wEdge.topic.name)
          wEdge.colour wEdge.colour wEdge.src.length)), 3) ∧
    (wEdge.src.flatMap (fun s => wEdge.dst.map (fun d =>
        DotStmt.edge s d
          (if wArgs.types then
            (if wEdge.src.length > 1 then wEdge.topic.name ++ "(" ++ toString wEdge.src.length ++ ")"
             else wEdge.topic.name) ++ " [" ++ wEdge.topic.types.headD "" ++ "]"
           else if wEdge.src.length > 1 then wEdge.topic.name ++ "(" ++ toString wEdge.src.length ++ ")"
           else wEdge.topic.name)
          wEdge.colour wEdge.colour wEdge.src.length))).length = wEdge.src.length * wEdge.dst.length :=
  claim_C2_cartesian_serialization wArgs 3 wEdge (by decide) (by decide) (fun _ => by decide)

/-! ### Claim C3 -/

/-- C3: with `unconnected` enabled, an edge with an empty source list gets
exactly one invisible synthetic `blank_r_` node appended as its only source
(symmetrically `blank_w_` for an empty destination list) before the
connections are rendered, so such an edge still renders at least one
connection; with `unconnected` disabled, an edge with an empty source or
destination list stays empty on that side and contributes zero rendered
connections (and no statements at all). -/
theorem claim_C3_unconnected_resolver (args : Args) (cnt : Nat) (e : Edge) :
    (args.unconnected = true → e.src = [] → e.dst ≠ [] →
      (args.types = true → e.topic.types ≠ []) →
      ∃ lbl, connLabel args e 1 = some lbl ∧
        renderEdge args cnt e = some
          (DotStmt.node (Ident.alloc "blank_r_" cnt) none (some "invis") ::
            e.dst.map (fun d =>
              DotStmt.edge (Ident.alloc "blank_r_" cnt) d lbl e.colour e.colour 1),
           cnt + 1)) ∧
    (args.unconnected = true → e.dst = [] → e.src ≠ [] →
      (args.types = true → e.topic.types ≠ []) →
      ∃ lbl, connLabel args e e.src.length = some lbl ∧
        renderEdge args cnt e = some
          (DotStmt.node (Ident.alloc "blank_w_" cnt) none (some "invis") ::
            e.src.map (fun s =>
              DotStmt.edge s (Ident.alloc "blank_w_" cnt) lbl e.colour e.colour e.src.length),
           cnt + 1)) ∧
    (args.unconnected = true → e.src = [] → e.dst = [] →
      (args.types = true → e.topic.types ≠ []) →
      ∃ lbl, connLabel args e 1 = some lbl ∧
        renderEdge args cnt e = some
          ([DotStmt.node (Ident.alloc "blank_r_" cnt) none (some "invis"),
            DotStmt.node (Ident.alloc "blank_w_" (cnt + 1)) none (some "invis"),
            DotStmt.edge (Ident.alloc "blank_r_" cnt) (Ident.alloc "blank_w_" (cnt + 1))
              lbl e.colour e.colour 1],
           cnt + 2)) ∧
    (args.unconnected = false → (e.src = [] ∨ e.dst = []) →
      renderEdge args cnt e = some ([], cnt)) := by
  refine ⟨?_, ?_, ?_, ?_⟩
  · intro hu hs hd ht
    obtain ⟨lbl, hlbl⟩ := Option.isSome_iff_exists.mp (connLabel_isSome args e 1 ht)
    refine ⟨lbl, hlbl, ?_⟩
    have hde : e.dst.isEmpty = false := by simpa [List.isEmpty_iff] using hd
    unfold renderEdge
    have h1 : connStmts args e ([] ++ [Ident.alloc "blank_r_" cnt] : List Ident).length e.dst
        ([] ++ [Ident.alloc "blank_r_" cnt]) =
        some (([] ++ [Ident.alloc "blank_r_" cnt] : List Ident).flatMap (fun s =>
          e.dst.map (fun d => DotStmt.edge s d lbl e.colour e.colour
            ([] ++ [Ident.alloc "blank_r_" cnt] : List Ident).length))) :=
      connStmts_eq args e _ e.dst lbl (by simpa using hlbl) _
    simp only [hs, hu, hde, List.isEmpty_nil, Bool.and_true, Bool.and_false,
      Bool.false_eq_true, if_false, if_true, get_id]
    rw [h1]
    simp
  · intro hu hd hs ht
    obtain ⟨lbl, hlbl⟩ := Option.isSome_iff_exists.mp (connLabel_isSome args e e.src.length ht)
    refine ⟨lbl, hlbl, ?_⟩
    have hse : e.src.isEmpty = false := by simpa [List.isEmpty_iff] using hs
    unfold renderEdge
    have h1 : connStmts args e e.src.length ([] ++ [Ident.alloc "blank_w_" cnt]) e.src =
        some (e.src.flatMap (fun s =>
          ([] ++ [Ident.alloc "blank_w_" cnt] : List Ident).map (fun d =>
            DotStmt.edge s d lbl e.colour e.colour e.src.length))) :=
      connStmts_eq args e _ _ lbl hlbl _
    simp only [hd, hu, hse, List.isEmpty_nil, Bool.and_true, Bool.and_false,
      Bool.false_eq_true, if_false, if_true, get_id, List.nil_append]
    simp only [List.nil_append] at h1
    rw [h1]
    simp only [List.map_cons, List.map_nil, Option.map_some]
    rw [flatMap_singleton_map]
    simp
  · intro hu hs hd ht
    obtain ⟨lbl, hlbl⟩ := Option.isSome_iff_exists.mp (connLabel_isSome args e 1 ht)
    refine ⟨lbl, hlbl, ?_⟩
    unfold renderEdge
    have h1 : connStmts args e ([] ++ [Ident.alloc "blank_r_" cnt] : List Ident).length
        ([] ++ [Ident.alloc "blank_w_" (cnt + 1)]) ([] ++ [Ident.alloc "blank_r_" cnt]) =
        some (([] ++ [Ident.alloc "blank_r_" cnt] : List Ident).flatMap (fun s =>
          ([] ++ [Ident.alloc "blank_w_" (cnt + 1)] : List Ident).map (fun d =>
            DotStmt.edge s d lbl e.colour e.colour
              ([] ++ [Ident.alloc "blank_r_" cnt] : List Ident).length))) :=
      connStmts_eq args e _ _ lbl (by simpa using hlbl) _
    simp only [hs, hd, hu, List.isEmpty_nil, Bool.and_true, if_true, get_id]
    rw [h1]
    simp
  · intro hu hor
    unfold renderEdge
    rcases hor with hs | hd
    · have h1 : connStmts args e e.src.length e.dst e.src = some [] := by
        rw [hs]; rfl
      simp [hu, h1]
    · have h1 : connStmts args e e.src.length e.dst e.src = some [] := by
        rw [hd]; exact connStmts_dst_nil args e e.src.length e.src
      simp [hu, h1]

/-- Witness for C3 on a concrete fan-in-less edge (`wEdgeNoSrc`, one
subscriber, no publisher): with `unconnected` on, one `blank_r_` source is
synthesized and exactly one connection rendered; with `unconnected` off
(`wArgsNoU`), nothing is rendered. -/
theorem claim_C3_witness :
    (∃ lbl, connLabel wArgs wEdgeNoSrc 1 = some lbl ∧
      renderEdge wArgs 4 wEdgeNoSrc = some
        (DotStmt.node (Ident.alloc "blank_r_" 4) none (some "invis") ::
          wEdgeNoSrc.dst.map (fun d =>
            DotStmt.edge (Ident.alloc "blank_r_" 4) d lbl wEdgeNoSrc.colour wEdgeNoSrc.colour 1),
         5)) ∧
    renderEdge wArgsNoU 4 wEdgeNoSrc = some ([], 4) := by
  constructor
  · exact (claim_C3_unconnected_resolver wArgs 4 wEdgeNoSrc).1 (by decide) (by decide)
      (by decide) (fun _ => by decide)
  · exact (claim_C3_unconnected_resolver wArgsNoU 4 wEdgeNoSrc).2.2.2 (by decide)
      (Or.inl (by decide))

/-! ### Unfolding the whole pass -/

theorem mainPass_def (args : Args) (snapshot : List NodeInfo) (cnt : Nat) :
    mainPass args snapshot cnt =
      (renderEdges args
        (aggregate args snapshot
          (renderNamespaces (snapshot.map (·.node))
            (pySet ((snapshot.map (·.node)).map (·.«namespace»))) (cnt + 1 + 1 + 1)).2).1
        (aggregate args snapshot
          (renderNamespaces (snapshot.map (·.node))
            (pySet ((snapshot.map (·.node)).map (·.«namespace»))) (cnt + 1 + 1 + 1)).2).2).map
        (fun p =>
          ([DotStmt.beginGraph "LR" true] ++
            legendStmts (Ident.alloc "cluster_" cnt) (Ident.alloc "key_" (cnt + 1))
              (Ident.alloc "key2_" (cnt + 1 + 1)) ++
            (renderNamespaces (snapshot.map (·.node))
              (pySet ((snapshot.map (·.node)).map (·.«namespace»))) (cnt + 1 + 1 + 1)).1 ++
            p.1 ++ [DotStmt.endGraph], p.2)) := by
  unfold mainPass
  simp only [get_id]

/-! ### Safety lemmas for the type index -/

theorem connStmts_isSome (args : Args) (e : Edge) (c : Nat) (dst src : List Ident)
    (ht : args.types = true → e.topic.types ≠ []) : (connStmts args e c dst src).isSome := by
  obtain ⟨lbl, hlbl⟩ := Option.isSome_iff_exists.mp (connLabel_isSome args e c ht)
  rw [connStmts_eq args e c dst lbl hlbl src]
  rfl

theorem renderEdge_isSome (args : Args) (cnt : Nat) (e : Edge)
    (ht : args.types = true → e.topic.types ≠ []) : (renderEdge args cnt e).isSome := by
  unfold renderEdge
  by_cases h1 : (args.unconnected && e.src.isEmpty) = true <;>
    by_cases h2 : (args.unconnected && e.dst.isEmpty) = true
  · simp only [h1, h2, if_true, get_id]
    obtain ⟨v, hv⟩ := Option.isSome_iff_exists.mp (connStmts_isSome args e
      (e.src ++ [Ident.alloc "blank_r_" cnt]).length (e.dst ++ [Ident.alloc "blank_w_" (cnt + 1)])
      (e.src ++ [Ident.alloc "blank_r_" cnt]) ht)
    rw [hv]
    rfl
  · simp only [h1, h2, if_true, Bool.false_eq_true, if_false, get_id]
    obtain ⟨v, hv⟩ := Option.isSome_iff_exists.mp (connStmts_isSome args e
      (e.src ++ [Ident.alloc "blank_r_" cnt]).length e.dst
      (e.src ++ [Ident.alloc "blank_r_" cnt]) ht)
    rw [hv]
    rfl
  · simp only [h1, h2, if_true, Bool.false_eq_true, if_false, get_id]
    obtain ⟨v, hv⟩ := Option.isSome_iff_exists.mp (connStmts_isSome args e
      e.src.length (e.dst ++ [Ident.alloc "blank_w_" cnt]) e.src ht)
    rw [hv]
    rfl
  · simp only [h1, h2, Bool.false_eq_true, if_false, get_id]
    obtain ⟨v, hv⟩ := Option.isSome_iff_exists.mp (connStmts_isSome args e
      e.src.length e.dst e.src ht)
    rw [hv]
    rfl

theorem renderEdges_isSome (args : Args) :
    ∀ (edges : Edges) (cnt : Nat),
    (∀ p ∈ edges, args.types = true → (p : String × Edge).2.topic.types ≠ []) →
    (renderEdges args edges cnt).isSome
  | [], _, _ => rfl
  | (k, e) :: rest, cnt, h => by
    have h1 := renderEdge_isSome args cnt e (h (k, e) (by simp))
    obtain ⟨⟨s1, c1⟩, hs1⟩ := Option.isSome_iff_exists.mp h1
    have h2 := renderEdges_isSome args rest c1 (fun p hp => h p (by simp [hp]))
    obtain ⟨⟨s2, c2⟩, hs2⟩ := Option.isSome_iff_exists.mp h2
    simp [renderEdges, hs1, hs2]

theorem processEvent_topic_mem (edges : Edges) (cnt : Nat) (ev : RecEvent) :
    ∀ p ∈ (processEvent edges cnt ev).1,
      (p : String × Edge).2.topic = ev.record ∨ ∃ q ∈ edges, p.2.topic = q.2.topic := by
  intro p hp
  unfold processEvent at hp
  by_cases hi : ignore ev.record.name
  · simp only [hi, if_true] at hp
    exact Or.inr ⟨p, hp, rfl⟩
  · simp only [hi, Bool.false_eq_true, if_false] at hp
    unfold dictModify at hp
    obtain ⟨q', hq', hpq⟩ := List.mem_map.mp hp
    have htop : p.2.topic = q'.2.topic := by
      by_cases hk : q'.1 = ev.record.name
      · simp only [hk, if_true] at hpq
        subst hpq
        by_cases ho : ev.outgoing <;> simp [ho]
      · simp only [hk, if_false] at hpq
        subst hpq
        rfl
    unfold dictSetdefault at hq'
    by_cases hs : (dictGet ev.record.name edges).isSome
    · simp only [hs, if_true] at hq'
      exact Or.inr ⟨q', hq', htop⟩
    · simp only [hs, Bool.false_eq_true, if_false, List.mem_append] at hq'
      rcases hq' with hq' | hq'
      · exact Or.inr ⟨q', hq', htop⟩
      · simp only [List.mem_singleton] at hq'
        subst hq'
        exact Or.inl htop

theorem aggregateEvents_topic_mem :
    ∀ (evs : List RecEvent) (edges : Edges) (cnt : Nat),
    ∀ p ∈ (aggregateEvents evs edges cnt).1,
      (∃ ev ∈ evs, (p : String × Edge).2.topic = ev.record) ∨ ∃ q ∈ edges, p.2.topic = q.2.topic
  | [], edges, cnt, p, hp => Or.inr ⟨p, hp, rfl⟩
  | ev :: evs, edges, cnt, p, hp => by
    rw [show aggregateEvents (ev :: evs) edges cnt =
        aggregateEvents evs (processEvent edges cnt ev).1 (processEvent edges cnt ev).2 from rfl] at hp
    rcases aggregateEvents_topic_mem evs _ _ p hp with ⟨ev', hev', h⟩ | ⟨q, hq, h⟩
    · exact Or.inl ⟨ev', by simp [hev'], h⟩
    · rcases processEvent_topic_mem edges cnt ev q hq with h' | ⟨q', hq', h'⟩
      · exact Or.inl ⟨ev, by simp, h.trans h'⟩
      · exact Or.inr ⟨q', hq', h.trans h'⟩

theorem nodeEvents_record_mem (args : Args) (info : NodeInfo) (ev : RecEvent)
    (h : ev ∈ nodeEvents args info) : ev.record ∈ allRecords info := by
  rcases nodeEvents_colour args info ev h with ⟨hm, _⟩ | ⟨hm, _⟩ | ⟨hm, _⟩ <;>
    simp only [List.mem_append] at hm <;> simp [allRecords, List.mem_append] <;> tauto

/-! ### Claim C10 -/

/-- C10: when type display is enabled, rendering a connection indexes the
first element of the originating record's type list; if every supplied
channel record declares at least one type, the whole pass succeeds and
produces a document, while a snapshot containing a record with an empty type
list makes the pass fail on that out-of-bounds index instead of producing a
document. -/
theorem claim_C10_type_index_safety (args : Args) (snapshot : List NodeInfo) (cnt : Nat)
    (h : ∀ info ∈ snapshot, ∀ r ∈ allRecords info, r.types ≠ []) :
    (mainPass args snapshot cnt).isSome ∧ mainPass wArgs [wBadNode] 0 = none := by
  constructor
  · have hall : ∀ p ∈ (aggregate args snapshot
        (renderNamespaces (snapshot.map (·.node))
          (pySet ((snapshot.map (·.node)).map (·.«namespace»))) (cnt + 1 + 1 + 1)).2).1,
        args.types = true → (p : String × Edge).2.topic.types ≠ [] := by
      intro p hp hat
      unfold aggregate at hp
      rcases aggregateEvents_topic_mem _ _ _ p hp with ⟨ev, hev, htop⟩ | ⟨q, hq, _⟩
      · obtain ⟨info, hinfo, hin⟩ := List.mem_flatMap.mp hev
        rw [htop]
        exact h info hinfo ev.record (nodeEvents_record_mem args info ev hin)
      · simp at hq
    obtain ⟨v, hv⟩ := Option.isSome_iff_exists.mp
      (renderEdges_isSome args _ _ hall)
    rw [mainPass_def, hv]
    rfl
  · rfl

/-- Witness for C10: the two-node snapshot whose records all declare types
renders successfully. -/
theorem claim_C10_witness :
    (mainPass wArgs [wNodeA, wNodeB] 0).isSome ∧ mainPass wArgs [wBadNode] 0 = none :=
  claim_C10_type_index_safety wArgs [wNodeA, wNodeB] 0
    (by intro info hinfo r hr; fin_cases hinfo <;> fin_cases hr <;> decide)

/-! ### Claim C8 -/

/-- C8: an empty discovery set is not an error: the pass produces the
minimal document — graph opening, the full static legend cluster, graph
close — with no node entries, no other clusters and no connections; and on
any input whose pass succeeds, the document starts with the graph opening
followed by the same input-independent legend cluster. -/
theorem claim_C8_empty_input (args : Args) (cnt : Nat) :
    mainPass args [] cnt = some
      ([DotStmt.beginGraph "LR" true] ++
        legendStmts (Ident.alloc "cluster_" cnt) (Ident.alloc "key_" (cnt + 1))
          (Ident.alloc "key2_" (cnt + 1 + 1)) ++ [DotStmt.endGraph], cnt + 1 + 1 + 1) ∧
    (∀ snapshot doc c', mainPass args snapshot cnt = some (doc, c') →
      ∃ rest, doc = [DotStmt.beginGraph "LR" true] ++
        legendStmts (Ident.alloc "cluster_" cnt) (Ident.alloc "key_" (cnt + 1))
          (Ident.alloc "key2_" (cnt + 1 + 1)) ++ rest) := by
  constructor
  · rw [mainPass_def]
    simp [pySet, renderNamespaces, aggregate, snapshotEvents, aggregateEvents, renderEdges]
  · intro snapshot doc c' hdoc
    rw [mainPass_def] at hdoc
    cases hre : renderEdges args
        (aggregate args snapshot
          (renderNamespaces (snapshot.map (·.node))
            (pySet ((snapshot.map (·.node)).map (·.«namespace»))) (cnt + 1 + 1 + 1)).2).1
        (aggregate args snapshot
          (renderNamespaces (snapshot.map (·.node))
            (pySet ((snapshot.map (·.node)).map (·.«namespace»))) (cnt + 1 + 1 + 1)).2).2 with
    | none => rw [hre] at hdoc; simp at hdoc
    | some p =>
      rw [hre] at hdoc
      simp only [Option.map_some', Option.some.injEq, Prod.mk.injEq] at hdoc
      refine ⟨(renderNamespaces (snapshot.map (·.node))
        (pySet ((snapshot.map (·.node)).map (·.«namespace»))) (cnt + 1 + 1 + 1)).1 ++
        p.1 ++ [DotStmt.endGraph], ?_⟩
      rw [← hdoc.1]
      simp [List.append_assoc]

/-- Witness for C8: the legend-prefix property applied to the successful
empty-input run itself. -/
theorem claim_C8_witness :
    ∃ rest, ([DotStmt.beginGraph "LR" true] ++
        legendStmts (Ident.alloc "cluster_" 7) (Ident.alloc "key_" 8)
          (Ident.alloc "key2_" 9) ++ [DotStmt.endGraph] : List DotStmt) =
      [DotStmt.beginGraph "LR" true] ++
        legendStmts (Ident.alloc "cluster_" 7) (Ident.alloc "key_" (7 + 1))
          (Ident.alloc "key2_" (7 + 1 + 1)) ++ rest :=
  (claim_C8_empty_input wArgs 7).2 []
    ([DotStmt.beginGraph "LR" true] ++
      legendStmts (Ident.alloc "cluster_" 7) (Ident.alloc "key_" 8)
        (Ident.alloc "key2_" 9) ++ [DotStmt.endGraph]) (7 + 1 + 1 + 1)
    (claim_C8_empty_input wArgs 7).1

/-! ### Namespace grouping lemmas -/

theorem pySet_go_mem :
    ∀ (l acc : List String) (y : String),
    y ∈ l.foldl (fun acc x => if x ∈ acc then acc else acc ++ [x]) acc ↔ y ∈ acc ∨ y ∈ l
  | [], acc, y => by simp
  | x :: l, acc, y => by
    rw [List.foldl_cons, pySet_go_mem l _ y]
    by_cases hx : x ∈ acc
    · simp only [hx, if_true, List.mem_cons]
      constructor
      · rintro (h | h)
        · exact Or.inl h
        · exact Or.inr (Or.inr h)
      · rintro (h | h | h)
        · exact Or.inl h
        · exact Or.inl (h ▸ hx)
        · exact Or.inr h
    · simp only [hx, if_false, List.mem_append, List.mem_singleton, List.mem_cons]
      tauto

theorem pySet_go_nodup :
    ∀ (l acc : List String), acc.Nodup →
    (l.foldl (fun acc x => if x ∈ acc then acc else acc ++ [x]) acc).Nodup
  | [], _, h => by simpa
  | x :: l, acc, h => by
    rw [List.foldl_cons]
    apply pySet_go_nodup l
    by_cases hx : x ∈ acc
    · simpa [hx]
    · simp only [hx, if_false]
      refine List.Nodup.append h (List.nodup_singleton x) ?_
      intro a ha hb
      rw [List.mem_singleton] at hb
      subst hb
      exact hx ha

theorem pySet_mem (l : List String) (y : String) : y ∈ pySet l ↔ y ∈ l := by
  unfold pySet
  rw [pySet_go_mem]
  simp

theorem pySet_nodup (l : List String) : (pySet l).Nodup :=
  pySet_go_nodup l [] (by simp)

theorem renderNamespaces_cons_ne (nodes : List NodeName) (ns : String)
    (nss : List String) (cnt : Nat) (h : ns ≠ "") :
    renderNamespaces nodes (ns :: nss) cnt =
      ([DotStmt.beginSubgraph (Ident.alloc "cluster_" cnt) ns] ++
        (groupedNode nodes ns).map nodeStmt ++ [DotStmt.endSubgraph] ++
        (renderNamespaces nodes nss (cnt + 1)).1,
       (renderNamespaces nodes nss (cnt + 1)).2) := by
  simp [renderNamespaces, h, get_id]

theorem renderNamespaces_cons_root (nodes : List NodeName) (nss : List String) (cnt : Nat) :
    renderNamespaces nodes ("" :: nss) cnt =
      ((groupedNode nodes "").map nodeStmt ++ (renderNamespaces nodes nss cnt).1,
       (renderNamespaces nodes nss cnt).2) := by
  simp [renderNamespaces]

theorem countP_nodeStmt_zero (ns : String) :
    ∀ l : List NodeName, (l.map nodeStmt).countP (isBeginNs ns) = 0
  | [] => rfl
  | n :: l => by
    simp only [List.map_cons, List.countP_cons]
    simp [countP_nodeStmt_zero ns l, isBeginNs, nodeStmt]

theorem renderNamespaces_countP (nodes : List NodeName) (ns : String) (hne : ns ≠ "") :
    ∀ (nss : List String) (cnt : Nat), nss.Nodup →
    ((renderNamespaces nodes nss cnt).1.countP (isBeginNs ns)) = if ns ∈ nss then 1 else 0
  | [], cnt, _ => by simp [renderNamespaces]
  | ns' :: nss, cnt, hnd => by
    have hih := renderNamespaces_countP nodes ns hne nss
    by_cases h' : ns' = ""
    · subst h'
      rw [renderNamespaces_cons_root]
      simp only [List.countP_append, countP_nodeStmt_zero, Nat.zero_add]
      rw [hih cnt (List.Nodup.of_cons hnd)]
      simp [hne]
    · rw [renderNamespaces_cons_ne nodes ns' nss cnt h']
      simp only [List.countP_append, countP_nodeStmt_zero, List.countP_cons, List.countP_nil]
      by_cases heq : ns' = ns
      · subst heq
        have hnot : ns' ∉ nss := (List.nodup_cons.mp hnd).1
        rw [hih (cnt + 1) (List.Nodup.of_cons hnd)]
        simp [isBeginNs, hnot]
      · rw [hih (cnt + 1) (List.Nodup.of_cons hnd)]
        have : isBeginNs ns (DotStmt.beginSubgraph (Ident.alloc "cluster_" cnt) ns') = false := by
          simp [isBeginNs]
          exact fun hh => absurd hh heq
        simp only [this, List.mem_cons]
        have hns : ¬ns = ns' := fun hh => heq hh.symm
        simp [isBeginNs, hns, heq]

/-! ### Claim C6 -/

/-- C6: the namespace grouping contains every namespace observed in the
node list and maps each to exactly the nodes whose namespace equals that
key, in input order (a sublist of the input); at serialization each observed
non-empty namespace opens exactly one cluster labelled with it, containing
one node entry (identifier and display label) per member, while the nodes of
the empty root namespace are emitted without any wrapping cluster. -/
theorem claim_C6_namespace_grouping (node_names : List NodeName) :
    (∀ ns, ns ∈ pySet (node_names.map (·.«namespace»)) ↔
      ∃ n ∈ node_names, n.«namespace» = ns) ∧
    (∀ ns n, n ∈ groupedNode node_names ns ↔ n ∈ node_names ∧ n.«namespace» = ns) ∧
    (∀ ns, (groupedNode node_names ns).Sublist node_names) ∧
    (∀ ns cnt, ns ≠ "" →
      ((renderNamespaces node_names (pySet (node_names.map (·.«namespace»))) cnt).1.countP
        (isBeginNs ns)) =
        if ns ∈ node_names.map (·.«namespace») then 1 else 0) ∧
    (∀ nss cnt, renderNamespaces node_names ("" :: nss) cnt =
      ((groupedNode node_names "").map nodeStmt ++ (renderNamespaces node_names nss cnt).1,
       (renderNamespaces node_names nss cnt).2)) ∧
    (∀ ns nss cnt, ns ≠ "" → renderNamespaces node_names (ns :: nss) cnt =
      ([DotStmt.beginSubgraph (Ident.alloc "cluster_" cnt) ns] ++
        (groupedNode node_names ns).map nodeStmt ++ [DotStmt.endSubgraph] ++
        (renderNamespaces node_names nss (cnt + 1)).1,
       (renderNamespaces node_names nss (cnt + 1)).2)) := by
  refine ⟨?_, ?_, ?_, ?_, ?_, ?_⟩
  · intro ns
    rw [pySet_mem]
    simp [List.mem_map]
  · intro ns n
    simp only [groupedNode, List.mem_filter, decide_eq_true_eq]
    constructor
    · rintro ⟨hn, h⟩
      exact ⟨hn, h.symm⟩
    · rintro ⟨hn, h⟩
      exact ⟨hn, h.symm⟩
  · intro ns
    exact List.filter_sublist node_names
  · intro ns cnt hne
    rw [renderNamespaces_countP node_names ns hne _ cnt
      (pySet_nodup (node_names.map (·.«namespace»)))]
    by_cases h : ns ∈ node_names.map (·.«namespace») <;>
      simp [h, pySet_mem]
  · intro nss cnt
    exact renderNamespaces_cons_root node_names nss cnt
  · intro ns nss cnt hne
    exact renderNamespaces_cons_ne node_names ns nss cnt hne

/-- Witness for C6 on the concrete node list (namespaces `/ns` and root):
namespace observation, grouping, and exactly one `/ns` cluster. -/
theorem claim_C6_witness :
    ("/ns" ∈ pySet ([wNodeA.node, wNodeB.node].map (·.«namespace»)) ↔
      ∃ n ∈ [wNodeA.node, wNodeB.node], n.«namespace» = "/ns") ∧
    ((renderNamespaces [wNodeA.node, wNodeB.node]
        (pySet ([wNodeA.node, wNodeB.node].map (·.«namespace»))) 0).1.countP
      (isBeginNs "/ns")) =
      (if "/ns" ∈ [wNodeA.node, wNodeB.node].map (·.«namespace») then 1 else 0) :=
  ⟨(claim_C6_namespace_grouping [wNodeA.node, wNodeB.node]).1 "/ns",
   (claim_C6_namespace_grouping [wNodeA.node, wNodeB.node]).2.2.2.1 "/ns" 0 (by decide)⟩

/-! ### Counter-shift equivariance -/

theorem dictGet_shiftEdges (k : Nat) (name : String) :
    ∀ d, dictGet name (shiftEdges k d) = (dictGet name d).map (shiftEdge k)
  | [] => rfl
  | (a, b) :: d => by
    show dictGet name ((a, shiftEdge k b) :: shiftEdges k d) = _
    by_cases h : name = a <;> simp [dictGet, h, dictGet_shiftEdges k name d]

theorem shiftEdges_append (k : Nat) (d d' : Edges) :
    shiftEdges k (d ++ d') = shiftEdges k d ++ shiftEdges k d' := by
  simp [shiftEdges]

theorem shiftEdges_setdefault (k : Nat) (d : Edges) (name : String) (v : Edge) :
    shiftEdges k (dictSetdefault d name v) =
      dictSetdefault (shiftEdges k d) name (shiftEdge k v) := by
  unfold dictSetdefault
  rw [dictGet_shiftEdges]
  cases h : dictGet name d <;> simp [h, shiftEdges_append, shiftEdges]

theorem shiftEdges_modify (k : Nat) (d : Edges) (name : String) (f g : Edge → Edge)
    (hfg : ∀ e, shiftEdge k (f e) = g (shiftEdge k e)) :
    shiftEdges k (dictModify d name f) = dictModify (shiftEdges k d) name g := by
  induction d with
  | nil => rfl
  | cons p t ih =>
    obtain ⟨a, b⟩ := p
    rw [dictModify_cons]
    by_cases h : a = name
    · rw [if_pos h]
      simp only [shiftEdges, List.map_cons, dictModify_cons, if_pos h, hfg]
      exact congrArg _ (by simpa [shiftEdges] using ih)
    · rw [if_neg h]
      simp only [shiftEdges, List.map_cons, dictModify_cons, if_neg h]
      exact congrArg _ (by simpa [shiftEdges] using ih)

theorem processEvent_shift (k : Nat) (edges : Edges) (cnt : Nat) (ev : RecEvent) :
    processEvent (shiftEdges k edges) (cnt + k) ev =
      (shiftEdges k (processEvent edges cnt ev).1, (processEvent edges cnt ev).2 + k) := by
  unfold processEvent
  by_cases hi : ignore ev.record.name
  · simp [hi]
  · simp only [hi, Bool.false_eq_true, if_false, get_id]
    refine Prod.ext ?_ (by simp [Nat.add_right_comm])
    simp only []
    rw [shiftEdges_modify k _ ev.record.name
      (fun e => if ev.outgoing then { e with src := e.src ++ [Ident.disc ev.nodeId] }
        else { e with dst := e.dst ++ [Ident.disc ev.nodeId] })
      (fun e => if ev.outgoing then { e with src := e.src ++ [Ident.disc ev.nodeId] }
        else { e with dst := e.dst ++ [Ident.disc ev.nodeId] })
      (fun e => by by_cases ho : ev.outgoing <;> simp [ho, shiftEdge, shiftIdent])]
    rw [shiftEdges_setdefault]
    rfl

theorem aggregateEvents_shift (k : Nat) :
    ∀ (evs : List RecEvent) (edges : Edges) (cnt : Nat),
    aggregateEvents evs (shiftEdges k edges) (cnt + k) =
      (shiftEdges k (aggregateEvents evs edges cnt).1, (aggregateEvents evs edges cnt).2 + k)
  | [], edges, cnt => rfl
  | ev :: evs, edges, cnt => by
    rw [show aggregateEvents (ev :: evs) (shiftEdges k edges) (cnt + k) =
        aggregateEvents evs (processEvent (shiftEdges k edges) (cnt + k) ev).1
          (processEvent (shiftEdges k edges) (cnt + k) ev).2 from rfl]
    rw [processEvent_shift k edges cnt ev]
    rw [aggregateEvents_shift k evs (processEvent edges cnt ev).1 (processEvent edges cnt ev).2]
    rfl

theorem aggregate_shift (k : Nat) (args : Args) (snapshot : List NodeInfo) (cnt : Nat) :
    aggregate args snapshot (cnt + k) =
      (shiftEdges k (aggregate args snapshot cnt).1, (aggregate args snapshot cnt).2 + k) := by
  unfold aggregate
  rw [show ([] : Edges) = shiftEdges k [] from rfl]
  exact aggregateEvents_shift k (snapshotEvents args snapshot) [] cnt

theorem shiftStmt_nodeStmt (k : Nat) (n : NodeName) : shiftStmt k (nodeStmt n) = nodeStmt n := rfl

theorem renderNamespaces_shift (k : Nat) (nodes : List NodeName) :
    ∀ (nss : List String) (cnt : Nat),
    renderNamespaces nodes nss (cnt + k) =
      ((renderNamespaces nodes nss cnt).1.map (shiftStmt k),
       (renderNamespaces nodes nss cnt).2 + k)
  | [], cnt => rfl
  | ns :: nss, cnt => by
    by_cases h : ns = ""
    · subst h
      rw [renderNamespaces_cons_root, renderNamespaces_cons_root,
        renderNamespaces_shift k nodes nss cnt]
      simp [List.map_map, Function.comp, shiftStmt_nodeStmt]
    · rw [renderNamespaces_cons_ne _ _ _ _ h, renderNamespaces_cons_ne _ _ _ _ h,
        Nat.add_right_comm cnt k 1, renderNamespaces_shift k nodes nss (cnt + 1)]
      simp [List.map_map, Function.comp, shiftStmt_nodeStmt, shiftStmt, shiftIdent]
      intro a _
      rfl

theorem connRow_shift (k : Nat) (args : Args) (e : Edge) (c : Nat) (s : Ident) :
    ∀ ds, connRow args (shiftEdge k e) c (shiftIdent k s) (ds.map (shiftIdent k)) =
      (connRow args e c s ds).map (List.map (shiftStmt k))
  | [] => rfl
  | d :: ds => by
    have hl : connLabel args (shiftEdge k e) c = connLabel args e c := rfl
    cases hc : connLabel args e c with
    | none => simp [connRow, hl, hc]
    | some lbl =>
      simp only [List.map_cons, connRow, hl, hc, connRow_shift k args e c s ds,
        Option.bind_some]
      cases connRow args e c s ds <;> simp [shiftStmt, shiftEdge]

theorem connStmts_shift (k : Nat) (args : Args) (e : Edge) (c : Nat) (dst : List Ident) :
    ∀ src, connStmts args (shiftEdge k e) c (dst.map (shiftIdent k)) (src.map (shiftIdent k)) =
      (connStmts args e c dst src).map (List.map (shiftStmt k))
  | [] => rfl
  | s :: ss => by
    simp only [List.map_cons, connStmts, connRow_shift k args e c s dst,
      connStmts_shift k args e c dst ss]
    cases connRow args e c s dst <;> cases connStmts args e c dst ss <;> simp

theorem renderEdge_shift (k : Nat) (args : Args) (cnt : Nat) (e : Edge) :
    renderEdge args (cnt + k) (shiftEdge k e) =
      (renderEdge args cnt e).map (fun p => (p.1.map (shiftStmt k), p.2 + k)) := by
  have hes : (shiftEdge k e).src.isEmpty = e.src.isEmpty := by
    cases hs : e.src <;> simp [shiftEdge, hs]
  have hed : (shiftEdge k e).dst.isEmpty = e.dst.isEmpty := by
    cases hd : e.dst <;> simp [shiftEdge, hd]
  unfold renderEdge
  by_cases h1 : (args.unconnected && e.src.isEmpty) = true <;>
    by_cases h2 : (args.unconnected && e.dst.isEmpty) = true
  · simp only [hes, hed, h1, h2, if_true, get_id]
    have harg1 : (shiftEdge k e).src ++ [Ident.alloc "blank_r_" (cnt + k)] =
        (e.src ++ [Ident.alloc "blank_r_" cnt]).map (shiftIdent k) := by
      simp [shiftEdge, shiftIdent]
    have harg2 : (shiftEdge k e).dst ++ [Ident.alloc "blank_w_" (cnt + k + 1)] =
        (e.dst ++ [Ident.alloc "blank_w_" (cnt + 1)]).map (shiftIdent k) := by
      simp [shiftEdge, shiftIdent, Nat.add_right_comm]
    rw [harg1, harg2, List.length_map,
      connStmts_shift k args e (e.src ++ [Ident.alloc "blank_r_" cnt]).length
        (e.dst ++ [Ident.alloc "blank_w_" (cnt + 1)]) (e.src ++ [Ident.alloc "blank_r_" cnt])]
    cases connStmts args e (e.src ++ [Ident.alloc "blank_r_" cnt]).length
        (e.dst ++ [Ident.alloc "blank_w_" (cnt + 1)]) (e.src ++ [Ident.alloc "blank_r_" cnt]) <;>
      simp [shiftStmt, shiftIdent, Nat.add_right_comm]
  · simp only [hes, hed, h1, h2, if_true, Bool.false_eq_true, if_false, get_id]
    have harg1 : (shiftEdge k e).src ++ [Ident.alloc "blank_r_" (cnt + k)] =
        (e.src ++ [Ident.alloc "blank_r_" cnt]).map (shiftIdent k) := by
      simp [shiftEdge, shiftIdent]
    have harg2 : (shiftEdge k e).dst = e.dst.map (shiftIdent k) := rfl
    rw [harg1, harg2, List.length_map,
      connStmts_shift k args e (e.src ++ [Ident.alloc "blank_r_" cnt]).length
        e.dst (e.src ++ [Ident.alloc "blank_r_" cnt])]
    cases connStmts args e (e.src ++ [Ident.alloc "blank_r_" cnt]).length
        e.dst (e.src ++ [Ident.alloc "blank_r_" cnt]) <;>
      simp [shiftStmt, shiftIdent, Nat.add_right_comm]
  · simp only [hes, hed, h1, h2, if_true, Bool.false_eq_true, if_false, get_id]
    have harg1 : (shiftEdge k e).src = e.src.map (shiftIdent k) := rfl
    have harg2 : (shiftEdge k e).dst ++ [Ident.alloc "blank_w_" (cnt + k)] =
        (e.dst ++ [Ident.alloc "blank_w_" cnt]).map (shiftIdent k) := by
      simp [shiftEdge, shiftIdent]
    rw [harg1, harg2, List.length_map,
      connStmts_shift k args e e.src.length (e.dst ++ [Ident.alloc "blank_w_" cnt]) e.src]
    cases connStmts args e e.src.length (e.dst ++ [Ident.alloc "blank_w_" cnt]) e.src <;>
      simp [shiftStmt, shiftIdent, Nat.add_right_comm]
  · simp only [hes, hed, h1, h2, Bool.false_eq_true, if_false, get_id]
    have harg1 : (shiftEdge k e).src = e.src.map (shiftIdent k) := rfl
    have harg2 : (shiftEdge k e).dst = e.dst.map (shiftIdent k) := rfl
    rw [harg1, harg2, List.length_map, connStmts_shift k args e e.src.length e.dst e.src]
    cases connStmts args e e.src.length e.dst e.src <;> simp

theorem renderEdges_shift (k : Nat) (args : Args) :
    ∀ (edges : Edges) (cnt : Nat),
    renderEdges args (shiftEdges k edges) (cnt + k) =
      (renderEdges args edges cnt).map (fun p => (p.1.map (shiftStmt k), p.2 + k))
  | [], cnt => rfl
  | (nm, e) :: rest, cnt => by
    rw [show shiftEdges k ((nm, e) :: rest) = (nm, shiftEdge k e) :: shiftEdges k rest from rfl]
    simp only [renderEdges, renderEdge_shift k args cnt e]
    cases hre : renderEdge args cnt e with
    | none => simp
    | some p =>
      obtain ⟨s1, c1⟩ := p
      simp only [Option.map_some', Option.pure_def, Option.bind_eq_bind, Option.some_bind]
      rw [renderEdges_shift k args rest c1]
      cases renderEdges args rest c1 <;> simp

theorem mainPass_shift (k : Nat) (args : Args) (snapshot : List NodeInfo) (cnt : Nat) :
    mainPass args snapshot (cnt + k) =
      (mainPass args snapshot cnt).map (fun p => (p.1.map (shiftStmt k), p.2 + k)) := by
  rw [mainPass_def, mainPass_def]
  rw [show cnt + k + 1 + 1 + 1 = (cnt + 1 + 1 + 1) + k by omega]
  rw [renderNamespaces_shift k (snapshot.map (·.node))
    (pySet ((snapshot.map (·.node)).map (·.«namespace»))) (cnt + 1 + 1 + 1)]
  rw [aggregate_shift k args snapshot
    (renderNamespaces (snapshot.map (·.node))
      (pySet ((snapshot.map (·.node)).map (·.«namespace»))) (cnt + 1 + 1 + 1)).2]
  rw [renderEdges_shift k args
    (aggregate args snapshot
      (renderNamespaces (snapshot.map (·.node))
        (pySet ((snapshot.map (·.node)).map (·.«namespace»))) (cnt + 1 + 1 + 1)).2).1
    (aggregate args snapshot
      (renderNamespaces (snapshot.map (·.node))
        (pySet ((snapshot.map (·.node)).map (·.«namespace»))) (cnt + 1 + 1 + 1)).2).2]
  cases renderEdges args
      (aggregate args snapshot
        (renderNamespaces (snapshot.map (·.node))
          (pySet ((snapshot.map (·.node)).map (·.«namespace»))) (cnt + 1 + 1 + 1)).2).1
      (aggregate args snapshot
        (renderNamespaces (snapshot.map (·.node))
          (pySet ((snapshot.map (·.node)).map (·.«namespace»))) (cnt + 1 + 1 + 1)).2).2 <;>
    simp [legendStmts, shiftStmt, shiftIdent, Nat.add_right_comm]

theorem shapeIdent_shiftIdent (k : Nat) (i : Ident) : shapeIdent (shiftIdent k i) = shapeIdent i := by
  cases i <;> rfl

theorem shapeStmt_shiftStmt (k : Nat) (s : DotStmt) : shapeStmt (shiftStmt k s) = shapeStmt s := by
  cases s <;> simp [shapeStmt, shiftStmt, shapeIdent_shiftIdent]

/-! ### Claim C7 -/

/-- C7: running the pass twice on an identical snapshot with the same
configuration — the second run continuing the allocator counter at any
position — produces documents with identical statement shapes: structure,
cluster labels, node labels, edge labels, colours and multiplicity counts
match exactly, the only difference being the numeric suffixes of allocated
identifiers. -/
theorem claim_C7_shape_idempotence (args : Args) (snapshot : List NodeInfo) (c1 c2 : Nat) :
    (mainPass args snapshot c1).map (fun p => p.1.map shapeStmt) =
      (mainPass args snapshot c2).map (fun p => p.1.map shapeStmt) := by
  have H : ∀ c, (mainPass args snapshot c).map (fun p => p.1.map shapeStmt) =
      (mainPass args snapshot 0).map (fun p => p.1.map shapeStmt) := by
    intro c
    rw [show c = 0 + c from (Nat.zero_add c).symm, mainPass_shift c args snapshot 0]
    cases mainPass args snapshot 0 <;>
      simp [List.map_map, Function.comp, shapeStmt_shiftStmt]
  rw [H c1, H c2]

end Ros2Graph
